import Mathlib

/-!
Verification development for the border-content synthesis core of
`pdf_border_tool` (`src/core/image_processor.py`).

Rasters are embedded as total pixel functions together with their
dimensions and PIL mode; the numpy slice assignments of the source are
embedded as a case analysis on the output coordinate (all written regions
are pairwise disjoint, so the write order is immaterial).  Machine
`uint8` values are `Nat` (no arithmetic in the code can overflow: the
only pixel arithmetic multiplies by a factor `≤ 1`).  Python float
arithmetic is idealized over `ℚ`; `int()` / `astype(uint8)` truncation
toward zero is `pyInt`.  Fallible paths (numpy `IndexError` on an empty
input, the OpenCV calls inside the smart-fill `try:` block) are embedded
with `Option`.
-/

namespace PdfBorderTool

/-- PIL image modes that occur in `image_processor.py` (1, 2, 3 and 4
channel rasters). -/
inductive Mode where
  | L | LA | RGB | RGBA
deriving DecidableEq, Repr

/-- Channel count of a mode: the last dimension of `np.array(image)`
(grayscale `L` arrays are 2-D; we count them as one channel). -/
def Mode.channels : Mode → Nat
  | .L => 1
  | .LA => 2
  | .RGB => 3
  | .RGBA => 4

/-- A raster: mode, height, width, and a total pixel function
`pix y x ch` (row-major, origin top-left), faithful on in-range
coordinates. -/
structure Img where
  mode : Mode
  height : Nat
  width : Nat
  pix : Nat → Nat → Nat → Nat

/-- The settings dictionary, restricted to the keys
`image_processor.py` reads, with the `settings.get` defaults already
applied.  `solid_color` is an RGB triple (the `BorderConfig` data
model; the source holds a hex string that PIL parses to this triple). -/
structure Settings where
  stretch_method : String
  stretch_source_width_mm : ℚ
  output_dpi : ℚ
  solid_color : Nat × Nat × Nat

/-- Python `int()` on a (rational) value: truncation toward zero.
`Int.div` is T-division, which agrees with Python truncation on
`num / den`. -/
def pyInt (q : ℚ) : ℤ := Int.tdiv q.num q.den

/-- `_mm_to_pixels` (image_processor.py lines 392-405):
`pixels = int(mm / 25.4 * dpi); return max(1, pixels)`. -/
def mm_to_pixels (mm : ℚ) (dpi : ℚ) : Nat :=
  max 1 (pyInt (mm / 25.4 * dpi)).toNat

/-- The clamped source-strip depth computed inline at lines 89-98 (and
again at lines 359-365): `max(1, min(mmToPixels(source_width_mm,
settings.output_dpi), min(W//4, H//4, B)))`.  Note that it converts
with `settings.output_dpi`, not with the `dpi` argument of
`generate_border_content`. -/
def stretchSourcePixels (s : Settings) (H W B : Nat) : Nat :=
  let source_width_pixels := mm_to_pixels s.stretch_source_width_mm s.output_dpi
  let max_source_pixels := min (W / 4) (min (H / 4) B)
  max 1 (min source_width_pixels max_source_pixels)

/-- The nearest-neighbor index map `min(i * S // B, S - 1)` used by
every edge band and by `_stretch_corner_region`. -/
def stretchIdx (i S B : Nat) : Nat := min (i * S / B) (S - 1)

/-- `_stretch_corner_region` (lines 225-254) as a pixel function: the
`srcH × srcW` patch is stretched to `targetSize × targetSize` by
`stretched[y, x] = patch[min(y*srcH//target, srcH-1),
min(x*srcW//target, srcW-1)]`. -/
def stretchCornerRegion (patch : Nat → Nat → Nat → Nat)
    (srcH srcW targetSize : Nat) : Nat → Nat → Nat → Nat :=
  fun y x ch =>
    patch (min (y * srcH / targetSize) (srcH - 1))
          (min (x * srcW / targetSize) (srcW - 1)) ch

/-- Pixel function of `_generate_edge_stretched_content`
(lines 52-186).  The nine written regions (center, four edge bands over
the middle sections only, four corner squares) partition the
`(H+2B) × (W+2B)` canvas; each case is the slice assignment of the
source.  Corner patches are the `S × S` blocks `orig[:S,:S]`,
`orig[:S,W-S:]`, `orig[H-S:,:S]`, `orig[H-S:,W-S:]` stretched by
`stretchCornerRegion`. -/
def edgeStretchedPix (img : Img) (B S : Nat) : Nat → Nat → Nat → Nat :=
  fun y x ch =>
    let H := img.height
    let W := img.width
    if B ≤ y ∧ y < B + H then
      if B ≤ x ∧ x < B + W then
        img.pix (y - B) (x - B) ch
      else if x < B then
        img.pix (y - B) (stretchIdx (B - 1 - x) S B) ch
      else
        img.pix (y - B) (W - 1 - stretchIdx (x - (B + W)) S B) ch
    else if y < B then
      if B ≤ x ∧ x < B + W then
        img.pix (stretchIdx (B - 1 - y) S B) (x - B) ch
      else if x < B then
        stretchCornerRegion (fun sy sx c => img.pix sy sx c) S S B y x ch
      else
        stretchCornerRegion (fun sy sx c => img.pix sy (W - S + sx) c)
          S S B y (x - (B + W)) ch
    else
      if B ≤ x ∧ x < B + W then
        img.pix (H - 1 - stretchIdx (y - (B + H)) S B) (x - B) ch
      else if x < B then
        stretchCornerRegion (fun sy sx c => img.pix (H - S + sy) sx c)
          S S B (y - (B + H)) x ch
      else
        stretchCornerRegion (fun sy sx c => img.pix (H - S + sy) (W - S + sx) c)
          S S B (y - (B + H)) (x - (B + W)) ch

/-- `_generate_edge_stretched_content` on a non-empty raster: same mode
(`Image.fromarray` of a same-shaped array), size `(H+2B) × (W+2B)`. -/
def edgeStretched (s : Settings) (img : Img) (B : Nat) : Img :=
  ⟨img.mode, img.height + 2 * B, img.width + 2 * B,
    edgeStretchedPix img B (stretchSourcePixels s img.height img.width B)⟩

/-- `_generate_edge_stretched_content` with its failure behavior: on an
empty raster (zero height or width) the band loops index into an empty
axis and numpy raises `IndexError` (there is no guard in the source);
on a non-empty raster every index is in range and the call returns.
Modelled for `B ≥ 1`, which the dispatcher guarantees
(`mm_to_pixels ≥ 1`). -/
def edgeStretchedChecked (s : Settings) (img : Img) (B : Nat) : Option Img :=
  if img.height = 0 ∨ img.width = 0 then none
  else some (edgeStretched s img B)

/-- The per-line fade factor of `_generate_clean_gradient_content`
(lines 341-344): `max(0.9, 1.0 - (i / B) * 0.1)` (float arithmetic
idealized over `ℚ`). -/
def gradientFactor (i B : Nat) : ℚ :=
  max 0.9 (1 - ((i : ℚ) / (B : ℚ)) * 0.1)

/-- A faded pixel sample: multiply by the factor, then
`astype(orig.dtype)` truncation toward zero back to `uint8`. -/
def fadePix (c i B : Nat) : Nat := (pyInt ((c : ℚ) * gradientFactor i B)).toNat

/-- Pixel function of `_generate_clean_gradient_content`
(lines 313-390): center copy; per-band fade of the single nearest
source edge line (`orig[0,:]`, `orig[-1,:]`, `orig[:,0]`, `orig[:,-1]`)
over the middle sections; corners stretched exactly as in the
edge-stretch strategy, with the same clamped source depth `S`
recomputed at lines 359-365. -/
def gradientPix (img : Img) (B S : Nat) : Nat → Nat → Nat → Nat :=
  fun y x ch =>
    let H := img.height
    let W := img.width
    if B ≤ y ∧ y < B + H then
      if B ≤ x ∧ x < B + W then
        img.pix (y - B) (x - B) ch
      else if x < B then
        fadePix (img.pix (y - B) 0 ch) (B - 1 - x) B
      else
        fadePix (img.pix (y - B) (W - 1) ch) (x - (B + W)) B
    else if y < B then
      if B ≤ x ∧ x < B + W then
        fadePix (img.pix 0 (x - B) ch) (B - 1 - y) B
      else if x < B then
        stretchCornerRegion (fun sy sx c => img.pix sy sx c) S S B y x ch
      else
        stretchCornerRegion (fun sy sx c => img.pix sy (W - S + sx) c)
          S S B y (x - (B + W)) ch
    else
      if B ≤ x ∧ x < B + W then
        fadePix (img.pix (H - 1) (x - B) ch) (y - (B + H)) B
      else if x < B then
        stretchCornerRegion (fun sy sx c => img.pix (H - S + sy) sx c)
          S S B (y - (B + H)) x ch
      else
        stretchCornerRegion (fun sy sx c => img.pix (H - S + sy) (W - S + sx) c)
          S S B (y - (B + H)) (x - (B + W)) ch

/-- `_generate_clean_gradient_content` on a non-empty raster. -/
def gradientFade (s : Settings) (img : Img) (B : Nat) : Img :=
  ⟨img.mode, img.height + 2 * B, img.width + 2 * B,
    gradientPix img B (stretchSourcePixels s img.height img.width B)⟩

/-- `_generate_clean_gradient_content` with its failure behavior: on an
empty raster the band loop reads `orig_array[0, :]` / `orig_array[-1]`
and numpy raises `IndexError` (no guard in the source, `B ≥ 1` from the
dispatcher); otherwise every access is in range. -/
def gradientFadeChecked (s : Settings) (img : Img) (B : Nat) : Option Img :=
  if img.height = 0 ∨ img.width = 0 then none
  else some (gradientFade s img B)

/-- The flat border sample of `_generate_solid_color_content`: channel
`ch` of the configured solid color (alpha 255 on an RGBA canvas). -/
def solidBorderPix (c : Nat × Nat × Nat) (ch : Nat) : Nat :=
  if ch = 0 then c.1 else if ch = 1 then c.2.1 else if ch = 2 then c.2.2 else 255

/-- Mode conversion performed by `Image.paste` when the pasted image's
mode differs from the canvas mode.  Only `L → RGB` (gray replicated)
and `LA → RGBA` (gray replicated, alpha kept) are reachable from
`_generate_solid_color_content`; all other reachable pairs are
identical modes. -/
def pasteConvert (src dst : Mode) (p : Nat → Nat → Nat → Nat) :
    Nat → Nat → Nat → Nat :=
  match src, dst with
  | .L, .RGB => fun y x _ => p y x 0
  | .LA, .RGBA => fun y x ch => if ch ≤ 2 then p y x 0 else p y x 1
  | _, _ => p

/-- `_generate_solid_color_content` (lines 188-223): a new
`(W+2B) × (H+2B)` canvas in mode RGBA when the input mode is RGBA or
LA and RGB otherwise, filled with the solid color, with the original
pasted (mode-converted by PIL) at offset `(B, B)`.  Total: it succeeds
even on an empty input raster (the paste of a 0×0 image is a no-op). -/
def solidColorContent (s : Settings) (img : Img) (B : Nat) : Img :=
  ⟨if img.mode = .RGBA ∨ img.mode = .LA then .RGBA else .RGB,
    img.height + 2 * B, img.width + 2 * B,
    fun y x ch =>
      if B ≤ y ∧ y < B + img.height ∧ B ≤ x ∧ x < B + img.width then
        pasteConvert img.mode
          (if img.mode = .RGBA ∨ img.mode = .LA then .RGBA else .RGB)
          img.pix (y - B) (x - B) ch
      else
        solidBorderPix s.solid_color ch⟩

/-- A pixel function together with a mask, the two arrays handed to
`cv2.inpaint`. -/
abbrev PixFn := Nat → Nat → Nat → Nat

/-- The binary inpainting mask as a function. -/
abbrev MaskFn := Nat → Nat → Nat

/-- The external inpainting backend (`cv2.inpaint`): abstract; `none`
is a raised exception.  `generate_border_content` is verified for
every backend behavior. -/
abbrev Inpaint := PixFn → MaskFn → Option PixFn

/-- `cv2.COLOR_RGB2BGR` / `cv2.COLOR_BGR2RGB` on a 3-channel raster:
swap channels 0 and 2 (an involution). -/
def bgrSwap (p : PixFn) : PixFn :=
  fun y x ch => p y x (if ch = 0 then 2 else if ch = 2 then 0 else ch)

/-- The extended canvas of `_opencv_smart_fill` (lines 278-291): zeros
with the (converted) original placed at the center. -/
def smartExtended (img : Img) (B : Nat) (base : PixFn) : PixFn :=
  fun y x ch =>
    if B ≤ y ∧ y < B + img.height ∧ B ≤ x ∧ x < B + img.width then
      base (y - B) (x - B) ch
    else 0

/-- The border mask of `_opencv_smart_fill` (lines 293-298): 255 on all
four margins, 0 on the center. -/
def smartMask (img : Img) (B : Nat) : MaskFn :=
  fun y x =>
    if y < B ∨ B + img.height ≤ y ∨ x < B ∨ B + img.width ≤ x then 255 else 0

/-- `_opencv_smart_fill` (lines 273-311).  RGB input: convert to BGR,
place at center, inpaint the masked margins, convert back.  Grayscale
`L`: inpaint directly.  2-channel `LA` and 4-channel `RGBA` arrays take
the 3-dim branch, where `cv2.cvtColor(..., COLOR_RGB2BGR)` (or, for
RGBA, at latest the assignment into the 3-channel canvas) raises —
OpenCV's documented contract for a non-3-channel source is an error —
so the call fails (`none`) before producing a raster. -/
def opencvSmartFill (inpaint : Inpaint) (img : Img) (B : Nat) : Option Img :=
  match img.mode with
  | .RGB =>
    (inpaint (smartExtended img B (bgrSwap img.pix)) (smartMask img B)).map
      fun res => ⟨.RGB, img.height + 2 * B, img.width + 2 * B, bgrSwap res⟩
  | .L =>
    (inpaint (smartExtended img B img.pix) (smartMask img B)).map
      fun res => ⟨.L, img.height + 2 * B, img.width + 2 * B, res⟩
  | _ => none

/-- `_generate_smart_fill_content` (lines 256-271): `try` the OpenCV
path; on any exception fall back to
`_generate_edge_stretched_content` on the same input (the fallback
itself is outside the `try`, so its own failure would propagate). -/
def smartFillContent (inpaint : Inpaint) (s : Settings) (img : Img)
    (B : Nat) : Option Img :=
  match opencvSmartFill inpaint img B with
  | some r => some r
  | none => edgeStretchedChecked s img B

/-- `generate_border_content` (lines 15-50): convert the border width
with the `dpi` argument, then dispatch on
`settings.get('stretch_method', 'edge_repeat')`; an unknown method
falls through to edge-stretch.  No `try/except` here: a strategy
failure propagates to the caller. -/
def generate_border_content (inpaint : Inpaint) (s : Settings) (img : Img)
    (border_width_mm : ℚ) (dpi : ℚ) : Option Img :=
  let border_pixels := mm_to_pixels border_width_mm dpi
  if s.stretch_method = "edge_repeat" then
    edgeStretchedChecked s img border_pixels
  else if s.stretch_method = "smart_fill" then
    smartFillContent inpaint s img border_pixels
  else if s.stretch_method = "gradient_fade" then
    gradientFadeChecked s img border_pixels
  else if s.stretch_method = "solid_color" then
    some (solidColorContent s img border_pixels)
  else
    edgeStretchedChecked s img border_pixels

/-- The center-preservation contract: every in-range pixel of the
input reappears, byte for byte, at offset `(B, B)` of the output. -/
def centerPreserved (img o : Img) (B : Nat) : Prop :=
  ∀ y < img.height, ∀ x < img.width, ∀ ch < img.mode.channels,
    o.pix (B + y) (B + x) ch = img.pix y x ch

/-- An inpainting backend honouring `cv2.inpaint`'s documented
contract: a successful result leaves every unmasked pixel unchanged. -/
def preservesUnmasked (inpaint : Inpaint) : Prop :=
  ∀ ext mask res, inpaint ext mask = some res →
    ∀ y x ch, mask y x = 0 → res y x ch = ext y x ch

/-- Mode of an optional result raster. -/
def outMode (r : Option Img) : Option Mode := r.map fun o => o.mode

/-- Channel count of an optional result raster. -/
def outChannels (r : Option Img) : Option Nat := r.map fun o => o.mode.channels

/-- Height and width of an optional result raster. -/
def outDims (r : Option Img) : Option (Nat × Nat) := r.map fun o => (o.height, o.width)

/-- A backend that always raises (used to exercise the fallback). -/
def inpaintFail : Inpaint := fun _ _ => none

/-- A backend that returns its input unchanged (trivially satisfies
`preservesUnmasked`). -/
def inpaintId : Inpaint := fun ext _ => some ext

/-- A 1×1 grayscale test raster. -/
def grayImg : Img := ⟨.L, 1, 1, fun _ _ _ => 7⟩

/-- A 5×6 RGB test raster with distinct pixel values. -/
def rgbImg : Img := ⟨.RGB, 5, 6, fun y x ch => 32 * y + 4 * x + ch⟩

/-- A 0×0 (malformed) RGB raster. -/
def emptyImg : Img := ⟨.RGB, 0, 0, fun _ _ _ => 0⟩

/-- Settings fixture: edge-stretch method, 1 mm source at 300 dpi. -/
def edgeSettings : Settings := ⟨"edge_repeat", 1, 300, (255, 255, 255)⟩

/-- Settings fixture: solid-color method, white. -/
def solidSettings : Settings := ⟨"solid_color", 1, 300, (255, 255, 255)⟩

/-- Settings fixture: smart-fill method. -/
def smartSettings : Settings := ⟨"smart_fill", 1, 300, (255, 255, 255)⟩

/-- Settings fixture: gradient-fade method. -/
def gradientSettings : Settings := ⟨"gradient_fade", 1, 300, (255, 255, 255)⟩

/-- A uniform 2×2 patch of gray value 9 (for the corner-stretch
uniformity witness). -/
def uniformPatch : Nat → Nat → Nat → Nat := fun _ _ _ => 9

/-- Python `int()` truncation agrees with the floor on nonnegative
rationals. -/
theorem pyInt_eq_floor (q : ℚ) (h : 0 ≤ q) : pyInt q = ⌊q⌋ := by
  rw [pyInt, Rat.floor_def,
    Int.tdiv_eq_ediv (Rat.num_nonneg.mpr h) (Int.natCast_nonneg _)]

/-- Evaluation rule for `mm_to_pixels` at a concrete positive value. -/
theorem mm_to_pixels_eval (mm dpi : ℚ) (n : ℕ) (hn : 1 ≤ n)
    (h1 : (n : ℚ) ≤ mm / 25.4 * dpi) (h2 : mm / 25.4 * dpi < n + 1) :
    mm_to_pixels mm dpi = n := by
  have hq : 0 ≤ mm / 25.4 * dpi := le_trans (by positivity) h1
  have hfl : ⌊mm / 25.4 * dpi⌋ = (n : ℤ) := by
    rw [Int.floor_eq_iff]
    · exact ⟨by exact_mod_cast h1, by exact_mod_cast h2⟩
  rw [mm_to_pixels, pyInt_eq_floor _ hq, hfl]
  simp [hn]

/-- `mm_to_pixels` never returns zero. -/
theorem mm_to_pixels_pos (mm dpi : ℚ) : 1 ≤ mm_to_pixels mm dpi :=
  le_max_left _ _

/-- C4 (amended): for positive `mm` and `dpi` the conversion is the
*floor* (Python `int()` truncation) of `mm / 25.4 * dpi`, clamped to a
minimum of one pixel — not rounding to the nearest integer. -/
theorem c4_mm_to_pixels_floor (mm dpi : ℚ) (hmm : 0 < mm) (hdpi : 0 < dpi) :
    (mm_to_pixels mm dpi : ℤ) = max 1 ⌊mm / 25.4 * dpi⌋ ∧
      1 ≤ mm_to_pixels mm dpi := by
  have hq : 0 ≤ mm / 25.4 * dpi := by positivity
  refine ⟨?_, le_max_left _ _⟩
  rw [mm_to_pixels, pyInt_eq_floor _ hq]
  have h0 : 0 ≤ ⌊mm / 25.4 * dpi⌋ := Int.floor_nonneg.mpr hq
  push_cast [Int.toNat_of_nonneg h0]
  rfl

/-- Witness for C4 at `mm = 1`, `dpi = 300`. -/
theorem c4_mm_to_pixels_floor_witness :
    ((mm_to_pixels 1 300 : ℤ) = max 1 ⌊(1 : ℚ) / 25.4 * 300⌋ ∧
      1 ≤ mm_to_pixels 1 300) :=
  c4_mm_to_pixels_floor 1 300 (by norm_num) (by norm_num)

/-- C4 counterexample: at `mm = 1`, `dpi = 300` the exact value is
`1500/127 ≈ 11.81`; the code truncates to 11 pixels while the claimed
`max(1, round(mm / 25.4 * dpi))` is 12. -/
theorem c4_round_counterexample :
    mm_to_pixels 1 300 = 11 ∧
      max 1 (round ((1 : ℚ) / 25.4 * 300)) = 12 ∧ (11 : ℤ) ≠ 12 := by
  refine ⟨mm_to_pixels_eval 1 300 11 (by norm_num) (by norm_num) (by norm_num), ?_, by decide⟩
  rw [round_eq]
  norm_num [Int.floor_eq_iff]

/-- C7: `_stretch_corner_region` is exactly the nearest-neighbor map
`output[y,x] = patch[min(y*S//B, S-1), min(x*S//B, S-1)]`, and on a
patch uniformly of color `c` every pixel of the stretched `B × B`
block is exactly `c`. -/
theorem c7_corner_stretch (patch : Nat → Nat → Nat → Nat) (S B C c : Nat)
    (hS : 0 < S) (hB : 0 < B)
    (huni : ∀ sy < S, ∀ sx < S, ∀ ch < C, patch sy sx ch = c) :
    (∀ y x ch, stretchCornerRegion patch S S B y x ch =
        patch (min (y * S / B) (S - 1)) (min (x * S / B) (S - 1)) ch) ∧
      (∀ y < B, ∀ x < B, ∀ ch < C, stretchCornerRegion patch S S B y x ch = c) := by
  refine ⟨fun y x ch => rfl, fun y _ x _ ch hch => ?_⟩
  exact huni _ (by omega) _ (by omega) _ hch

/-- Witness for C7: a uniform 2×2 patch of value 9 stretched to 7×7. -/
theorem c7_corner_stretch_witness :
    (∀ y x ch, stretchCornerRegion uniformPatch 2 2 7 y x ch =
        uniformPatch (min (y * 2 / 7) 1) (min (x * 2 / 7) 1) ch) ∧
      (∀ y < 7, ∀ x < 7, ∀ ch < 1, stretchCornerRegion uniformPatch 2 2 7 y x ch = 9) :=
  c7_corner_stretch uniformPatch 2 7 1 9 (by decide) (by decide)
    (fun _ _ _ _ _ _ => rfl)

/-- C5: the strip depth is `S = clamp(source_width_pixels, 1,
min(B, H/4, W/4))`; each of the `B` border lines of each edge band is a
verbatim copy of the source edge line at index `min(i*S//B, S-1)`
(counted from the respective edge), placed over the band directly
adjacent to the original (corner squares excluded); every sampled index
is `< S`, so the bands read only the outermost `S` rows/cols. -/
theorem c5_edge_sampling (s : Settings) (img : Img) (B : Nat)
    (hH : 0 < img.height) (hW : 0 < img.width) (hB : 0 < B) :
    stretchSourcePixels s img.height img.width B =
        max 1 (min (mm_to_pixels s.stretch_source_width_mm s.output_dpi)
          (min B (min (img.height / 4) (img.width / 4)))) ∧
      (∀ i < B, stretchIdx i (stretchSourcePixels s img.height img.width B) B <
        stretchSourcePixels s img.height img.width B) ∧
      (∀ i < B, ∀ x < img.width, ∀ ch,
        (edgeStretched s img B).pix (B - 1 - i) (B + x) ch =
          img.pix (stretchIdx i (stretchSourcePixels s img.height img.width B) B) x ch) ∧
      (∀ i < B, ∀ x < img.width, ∀ ch,
        (edgeStretched s img B).pix (B + img.height + i) (B + x) ch =
          img.pix (img.height - 1 -
            stretchIdx i (stretchSourcePixels s img.height img.width B) B) x ch) ∧
      (∀ i < B, ∀ y < img.height, ∀ ch,
        (edgeStretched s img B).pix (B + y) (B - 1 - i) ch =
          img.pix y (stretchIdx i (stretchSourcePixels s img.height img.width B) B) ch) ∧
      (∀ i < B, ∀ y < img.height, ∀ ch,
        (edgeStretched s img B).pix (B + y) (B + img.width + i) ch =
          img.pix y (img.width - 1 -
            stretchIdx i (stretchSourcePixels s img.height img.width B) B) ch) := by
  set H := img.height with hHdef
  set W := img.width with hWdef
  set S := stretchSourcePixels s H W B with hSdef
  have hS1 : 1 ≤ S := le_max_left _ _
  refine ⟨?_, ?_, ?_, ?_, ?_, ?_⟩
  · simp only [hSdef, stretchSourcePixels]
    omega
  · intro i _
    simp only [stretchIdx]
    omega
  · intro i hi x hx ch
    show edgeStretchedPix img B S (B - 1 - i) (B + x) ch = _
    simp only [edgeStretchedPix, ← hHdef, ← hWdef]
    rw [if_neg (by omega), if_pos (by omega), if_pos (by omega),
      show B - 1 - (B - 1 - i) = i by omega, show B + x - B = x by omega]
  · intro i hi x hx ch
    show edgeStretchedPix img B S (B + H + i) (B + x) ch = _
    simp only [edgeStretchedPix, ← hHdef, ← hWdef]
    rw [if_neg (by omega), if_neg (by omega), if_pos (by omega),
      show B + H + i - (B + H) = i by omega, show B + x - B = x by omega]
  · intro i hi y hy ch
    show edgeStretchedPix img B S (B + y) (B - 1 - i) ch = _
    simp only [edgeStretchedPix, ← hHdef, ← hWdef]
    rw [if_pos (by omega), if_neg (by omega), if_pos (by omega),
      show B - 1 - (B - 1 - i) = i by omega, show B + y - B = y by omega]
  · intro i hi y hy ch
    show edgeStretchedPix img B S (B + y) (B + W + i) ch = _
    simp only [edgeStretchedPix, ← hHdef, ← hWdef]
    rw [if_pos (by omega), if_neg (by omega), if_neg (by omega),
      show B + W + i - (B + W) = i by omega, show B + y - B = y by omega]

/-- The center slice assignment of `_generate_edge_stretched_content`
(lines 81-83) is what every center pixel of the output evaluates to. -/
theorem edgeStretchedPix_center (img : Img) (B S y x ch : Nat)
    (hy : y < img.height) (hx : x < img.width) :
    edgeStretchedPix img B S (B + y) (B + x) ch = img.pix y x ch := by
  simp only [edgeStretchedPix]
  rw [if_pos (by omega), if_pos (by omega),
    show B + y - B = y by omega, show B + x - B = x by omega]

/-- Edge-stretch preserves the center byte-for-byte. -/
theorem edgeStretched_center (s : Settings) (img : Img) (B : Nat) :
    centerPreserved img (edgeStretched s img B) B :=
  fun y hy x hx ch _ => edgeStretchedPix_center img B _ y x ch hy hx

/-- The center slice assignment of `_generate_clean_gradient_content`
(lines 337-338). -/
theorem gradientPix_center (img : Img) (B S y x ch : Nat)
    (hy : y < img.height) (hx : x < img.width) :
    gradientPix img B S (B + y) (B + x) ch = img.pix y x ch := by
  simp only [gradientPix]
  rw [if_pos (by omega), if_pos (by omega),
    show B + y - B = y by omega, show B + x - B = x by omega]

/-- Gradient-fade preserves the center byte-for-byte. -/
theorem gradientFade_center (s : Settings) (img : Img) (B : Nat) :
    centerPreserved img (gradientFade s img B) B :=
  fun y hy x hx ch _ => gradientPix_center img B _ y x ch hy hx

/-- Solid-color preserves the center byte-for-byte whenever PIL's
paste performs no mode coercion, i.e. for RGB and RGBA inputs. -/
theorem solidColor_center (s : Settings) (img : Img) (B : Nat)
    (hmode : img.mode = .RGB ∨ img.mode = .RGBA) :
    centerPreserved img (solidColorContent s img B) B := by
  intro y hy x hx ch _
  change (if B ≤ B + y ∧ B + y < B + img.height ∧ B ≤ B + x ∧ B + x < B + img.width
      then pasteConvert img.mode
        (if img.mode = .RGBA ∨ img.mode = .LA then .RGBA else .RGB)
        img.pix (B + y - B) (B + x - B) ch
      else solidBorderPix s.solid_color ch) = img.pix y x ch
  rw [if_pos (by omega : B ≤ B + y ∧ B + y < B + img.height ∧
    B ≤ B + x ∧ B + x < B + img.width)]
  rcases hmode with h | h <;>
    simp [h, pasteConvert, show B + y - B = y by omega, show B + x - B = x by omega]

/-- The BGR channel swap is an involution. -/
theorem bgrSwap_bgrSwap (p : PixFn) (y x ch : Nat) :
    bgrSwap (bgrSwap p) y x ch = p y x ch := by
  by_cases h0 : ch = 0
  · subst h0; simp [bgrSwap]
  by_cases h2 : ch = 2
  · subst h2; simp [bgrSwap]
  · simp [bgrSwap, h0, h2]

/-- The inpainting mask is zero on the whole center region. -/
theorem smartMask_center (img : Img) (B y x : Nat)
    (hy : y < img.height) (hx : x < img.width) :
    smartMask img B (B + y) (B + x) = 0 := by
  simp only [smartMask]
  rw [if_neg (by omega)]

/-- A successful `_opencv_smart_fill` preserves the center
byte-for-byte, for every backend satisfying `cv2.inpaint`'s contract
that unmasked pixels are left unchanged. -/
theorem opencvSmartFill_center (inpaint : Inpaint) (img : Img) (B : Nat)
    (r : Img) (hp : preservesUnmasked inpaint)
    (h : opencvSmartFill inpaint img B = some r) :
    centerPreserved img r B := by
  intro y hy x hx ch _
  cases hm : img.mode with
  | RGB =>
    rw [opencvSmartFill, hm] at h
    cases hres : inpaint (smartExtended img B (bgrSwap img.pix)) (smartMask img B) with
    | none => rw [hres] at h; simp at h
    | some res =>
      rw [hres, Option.map_some'] at h
      cases h
      show bgrSwap res (B + y) (B + x) ch = _
      have hmask := smartMask_center img B y x hy hx
      calc bgrSwap res (B + y) (B + x) ch
          = bgrSwap (smartExtended img B (bgrSwap img.pix)) (B + y) (B + x) ch := by
            simp only [bgrSwap]
            exact hp _ _ _ hres _ _ _ hmask
        _ = img.pix y x ch := by
            simp only [bgrSwap, smartExtended]
            rw [if_pos (by omega), show B + y - B = y by omega,
              show B + x - B = x by omega]
            have := bgrSwap_bgrSwap img.pix y x ch
            simpa [bgrSwap] using this
  | L =>
    rw [opencvSmartFill, hm] at h
    cases hres : inpaint (smartExtended img B img.pix) (smartMask img B) with
    | none => rw [hres] at h; simp at h
    | some res =>
      rw [hres, Option.map_some'] at h
      cases h
      show res (B + y) (B + x) ch = _
      rw [hp _ _ _ hres _ _ _ (smartMask_center img B y x hy hx)]
      show smartExtended img B img.pix (B + y) (B + x) ch = _
      simp only [smartExtended]
      rw [if_pos (by omega), show B + y - B = y by omega,
        show B + x - B = x by omega]
  | LA => rw [opencvSmartFill, hm] at h; simp at h
  | RGBA => rw [opencvSmartFill, hm] at h; simp at h

/-- C1 (amended): center preservation.  For every non-empty input and
every strategy the output exists and carries the input byte-for-byte
at offset `(B, B)` — unconditionally for edge-stretch and
gradient-fade (and any unknown method, which falls back to
edge-stretch); for smart-fill provided the inpainting backend honours
`cv2.inpaint`'s contract on unmasked pixels (failures fall back to
edge-stretch); and for solid-color provided the input mode is RGB or
RGBA, since `L`/`LA` inputs are mode-coerced by the paste and the
center is then not byte-identical. -/
theorem c1_center_preservation (inpaint : Inpaint) (s : Settings) (img : Img)
    (mm dpi : ℚ) (hH : 0 < img.height) (hW : 0 < img.width)
    (hinp : preservesUnmasked inpaint)
    (hsolid : s.stretch_method = "solid_color" →
      img.mode = .RGB ∨ img.mode = .RGBA) :
    ∃ o, generate_border_content inpaint s img mm dpi = some o ∧
      centerPreserved img o (mm_to_pixels mm dpi) := by
  have hne : ¬(img.height = 0 ∨ img.width = 0) := by omega
  rw [generate_border_content]
  by_cases h1 : s.stretch_method = "edge_repeat"
  · rw [if_pos h1, edgeStretchedChecked, if_neg hne]
    exact ⟨_, rfl, edgeStretched_center s img _⟩
  rw [if_neg h1]
  by_cases h2 : s.stretch_method = "smart_fill"
  · rw [if_pos h2]
    cases hr : opencvSmartFill inpaint img (mm_to_pixels mm dpi) with
    | some r =>
      rw [smartFillContent, hr]
      exact ⟨r, rfl, opencvSmartFill_center inpaint img _ r hinp hr⟩
    | none =>
      rw [smartFillContent, hr, edgeStretchedChecked, if_neg hne]
      exact ⟨_, rfl, edgeStretched_center s img _⟩
  rw [if_neg h2]
  by_cases h3 : s.stretch_method = "gradient_fade"
  · rw [if_pos h3, gradientFadeChecked, if_neg hne]
    exact ⟨_, rfl, gradientFade_center s img _⟩
  rw [if_neg h3]
  by_cases h4 : s.stretch_method = "solid_color"
  · rw [if_pos h4]
    exact ⟨_, rfl, solidColor_center s img _ (hsolid h4)⟩
  · rw [if_neg h4, edgeStretchedChecked, if_neg hne]
    exact ⟨_, rfl, edgeStretched_center s img _⟩

/-- Witness for C1: edge-stretch on the 5×6 RGB fixture at 1 mm,
300 dpi, with the identity backend. -/
theorem c1_center_preservation_witness :
    ∃ o, generate_border_content inpaintId edgeSettings rgbImg 1 300 = some o ∧
      centerPreserved rgbImg o (mm_to_pixels 1 300) :=
  c1_center_preservation inpaintId edgeSettings rgbImg 1 300 (by decide) (by decide)
    (fun ext mask res hres y x ch _ => by
      simp only [inpaintId, Option.some.injEq] at hres
      rw [← hres])
    (fun h => by simp [edgeSettings] at h)

/-- C1 counterexample: solid-color on a 1×1 grayscale input.  The
claimed byte-identity of the center fails because the output raster is
RGB while the input is single-channel `L`: the strategies do not all
leave the center byte-identical. -/
theorem c1_counterexample :
    outMode (generate_border_content inpaintFail solidSettings grayImg 1 300) =
        some Mode.RGB ∧
      grayImg.mode = Mode.L ∧ Mode.RGB ≠ Mode.L := by
  refine ⟨rfl, rfl, by decide⟩

/-- Any successful `_opencv_smart_fill` result keeps the input's mode
and has the `(H+2B) × (W+2B)` canvas size. -/
theorem opencvSmartFill_dims (inpaint : Inpaint) (img : Img) (B : Nat) (r : Img)
    (h : opencvSmartFill inpaint img B = some r) :
    r.mode = img.mode ∧ r.height = img.height + 2 * B ∧
      r.width = img.width + 2 * B := by
  cases hm : img.mode <;> rw [opencvSmartFill, hm] at h
  case RGB =>
    cases hres : inpaint (smartExtended img B (bgrSwap img.pix)) (smartMask img B) with
    | none => rw [hres] at h; simp at h
    | some res => rw [hres, Option.map_some'] at h; cases h; exact ⟨rfl, rfl, rfl⟩
  case L =>
    cases hres : inpaint (smartExtended img B img.pix) (smartMask img B) with
    | none => rw [hres] at h; simp at h
    | some res => rw [hres, Option.map_some'] at h; cases h; exact ⟨rfl, rfl, rfl⟩
  case LA => simp at h
  case RGBA => simp at h

/-- If the backend always raises, `_opencv_smart_fill` fails for every
input (for `LA`/`RGBA` inputs it fails already in the conversion). -/
theorem opencvSmartFill_none_of_fail (inpaint : Inpaint) (img : Img) (B : Nat)
    (hfail : ∀ ext mask, inpaint ext mask = none) :
    opencvSmartFill inpaint img B = none := by
  cases hm : img.mode <;> simp [opencvSmartFill, hm, hfail]

/-- C2 (amended): size law.  For every strategy the output exists with
spatial shape exactly `(H+2B, W+2B)`; the channel count (mode) is that
of the input for edge-stretch, smart-fill and gradient-fade, while
solid-color forces mode RGBA for RGBA/LA inputs and RGB otherwise (so
the channel count is *not* preserved for `L` inputs). -/
theorem c2_size_law (inpaint : Inpaint) (s : Settings) (img : Img)
    (mm dpi : ℚ) (hH : 0 < img.height) (hW : 0 < img.width) :
    ∃ o, generate_border_content inpaint s img mm dpi = some o ∧
      o.height = img.height + 2 * mm_to_pixels mm dpi ∧
      o.width = img.width + 2 * mm_to_pixels mm dpi ∧
      o.mode = (if s.stretch_method = "solid_color" then
          (if img.mode = .RGBA ∨ img.mode = .LA then .RGBA else .RGB)
        else img.mode) := by
  have hne : ¬(img.height = 0 ∨ img.width = 0) := by omega
  rw [generate_border_content]
  by_cases h1 : s.stretch_method = "edge_repeat"
  · rw [if_pos h1, edgeStretchedChecked, if_neg hne, if_neg (by rw [h1]; decide)]
    exact ⟨_, rfl, rfl, rfl, rfl⟩
  rw [if_neg h1]
  by_cases h2 : s.stretch_method = "smart_fill"
  · rw [if_pos h2, if_neg (by rw [h2]; decide)]
    cases hr : opencvSmartFill inpaint img (mm_to_pixels mm dpi) with
    | some r =>
      rw [smartFillContent, hr]
      obtain ⟨hmo, hh, hw⟩ := opencvSmartFill_dims inpaint img _ r hr
      exact ⟨r, rfl, hh, hw, hmo⟩
    | none =>
      rw [smartFillContent, hr, edgeStretchedChecked, if_neg hne]
      exact ⟨_, rfl, rfl, rfl, rfl⟩
  rw [if_neg h2]
  by_cases h3 : s.stretch_method = "gradient_fade"
  · rw [if_pos h3, gradientFadeChecked, if_neg hne, if_neg (by rw [h3]; decide)]
    exact ⟨_, rfl, rfl, rfl, rfl⟩
  rw [if_neg h3]
  by_cases h4 : s.stretch_method = "solid_color"
  · rw [if_pos h4, if_pos h4]
    exact ⟨_, rfl, rfl, rfl, rfl⟩
  · rw [if_neg h4, if_neg h4, edgeStretchedChecked, if_neg hne]
    exact ⟨_, rfl, rfl, rfl, rfl⟩

/-- Witness for C2: edge-stretch on the 5×6 RGB fixture. -/
theorem c2_size_law_witness :
    ∃ o, generate_border_content inpaintId edgeSettings rgbImg 1 300 = some o ∧
      o.height = rgbImg.height + 2 * mm_to_pixels 1 300 ∧
      o.width = rgbImg.width + 2 * mm_to_pixels 1 300 ∧
      o.mode = (if edgeSettings.stretch_method = "solid_color" then
          (if rgbImg.mode = .RGBA ∨ rgbImg.mode = .LA then .RGBA else .RGB)
        else rgbImg.mode) :=
  c2_size_law inpaintId edgeSettings rgbImg 1 300 (by decide) (by decide)

/-- C2 counterexample: solid-color on a 1×1 grayscale input produces a
3-channel RGB raster, so `output.shape` does not keep the input's
channel count `C = 1`. -/
theorem c2_counterexample :
    outChannels (generate_border_content inpaintFail solidSettings grayImg 1 300) =
        some 3 ∧
      grayImg.mode.channels = 1 ∧ (3 : Nat) ≠ 1 :=
  ⟨rfl, rfl, by decide⟩

/-- C3: no exception escapes `generate_border_content` on a non-empty
input, for *every* backend behavior (the inpainting backend is the
only fallible call on a valid input raster, and it sits inside the
smart-fill `try`); when the smart-fill path fails the result is
exactly the edge-stretch output on the same input.  (The settings are
modelled as a well-formed `BorderConfig`, in particular
`solid_color` is an RGB triple.) -/
theorem c3_fallback_totality (inpaint : Inpaint) (s : Settings) (img : Img)
    (mm dpi : ℚ) (hH : 0 < img.height) (hW : 0 < img.width) :
    (generate_border_content inpaint s img mm dpi).isSome = true ∧
      (s.stretch_method = "smart_fill" →
        opencvSmartFill inpaint img (mm_to_pixels mm dpi) = none →
        generate_border_content inpaint s img mm dpi =
          some (edgeStretched s img (mm_to_pixels mm dpi))) := by
  have hne : ¬(img.height = 0 ∨ img.width = 0) := by omega
  constructor
  · rw [generate_border_content]
    by_cases h1 : s.stretch_method = "edge_repeat"
    · rw [if_pos h1, edgeStretchedChecked, if_neg hne]; rfl
    rw [if_neg h1]
    by_cases h2 : s.stretch_method = "smart_fill"
    · rw [if_pos h2]
      cases hr : opencvSmartFill inpaint img (mm_to_pixels mm dpi) with
      | some r => rw [smartFillContent, hr]; rfl
      | none => rw [smartFillContent, hr, edgeStretchedChecked, if_neg hne]; rfl
    rw [if_neg h2]
    by_cases h3 : s.stretch_method = "gradient_fade"
    · rw [if_pos h3, gradientFadeChecked, if_neg hne]; rfl
    rw [if_neg h3]
    by_cases h4 : s.stretch_method = "solid_color"
    · rw [if_pos h4]; rfl
    · rw [if_neg h4, edgeStretchedChecked, if_neg hne]; rfl
  · intro h2 hr
    rw [generate_border_content, if_neg (by rw [h2]; decide), if_pos h2,
      smartFillContent, hr, edgeStretchedChecked, if_neg hne]

/-- Witness for C3: smart-fill with an always-failing backend on the
5×6 RGB fixture. -/
theorem c3_fallback_totality_witness :
    (generate_border_content inpaintFail smartSettings rgbImg 1 300).isSome = true ∧
      (smartSettings.stretch_method = "smart_fill" →
        opencvSmartFill inpaintFail rgbImg (mm_to_pixels 1 300) = none →
        generate_border_content inpaintFail smartSettings rgbImg 1 300 =
          some (edgeStretched smartSettings rgbImg (mm_to_pixels 1 300))) :=
  c3_fallback_totality inpaintFail smartSettings rgbImg 1 300 (by decide) (by decide)

/-- C8: if the smart-fill backend raises on every call,
`generate_border_content` with method `smart_fill` returns exactly the
edge-stretch result on the same input, of size `(H+2B) × (W+2B)`. -/
theorem c8_smartfill_fallback (inpaint : Inpaint) (s : Settings) (img : Img)
    (mm dpi : ℚ) (hH : 0 < img.height) (hW : 0 < img.width)
    (hmethod : s.stretch_method = "smart_fill")
    (hfail : ∀ ext mask, inpaint ext mask = none) :
    generate_border_content inpaint s img mm dpi =
        some (edgeStretched s img (mm_to_pixels mm dpi)) ∧
      (edgeStretched s img (mm_to_pixels mm dpi)).height =
        img.height + 2 * mm_to_pixels mm dpi ∧
      (edgeStretched s img (mm_to_pixels mm dpi)).width =
        img.width + 2 * mm_to_pixels mm dpi := by
  have hne : ¬(img.height = 0 ∨ img.width = 0) := by omega
  refine ⟨?_, rfl, rfl⟩
  rw [generate_border_content, if_neg (by rw [hmethod]; decide), if_pos hmethod,
    smartFillContent, opencvSmartFill_none_of_fail inpaint img _ hfail,
    edgeStretchedChecked, if_neg hne]

/-- Witness for C8 on the 5×6 RGB fixture. -/
theorem c8_smartfill_fallback_witness :
    generate_border_content inpaintFail smartSettings rgbImg 1 300 =
        some (edgeStretched smartSettings rgbImg (mm_to_pixels 1 300)) ∧
      (edgeStretched smartSettings rgbImg (mm_to_pixels 1 300)).height =
        rgbImg.height + 2 * mm_to_pixels 1 300 ∧
      (edgeStretched smartSettings rgbImg (mm_to_pixels 1 300)).width =
        rgbImg.width + 2 * mm_to_pixels 1 300 :=
  c8_smartfill_fallback inpaintFail smartSettings rgbImg 1 300 (by decide)
    (by decide) rfl (fun _ _ => rfl)

/-- C9: solid-color mode coercion — the output mode is RGBA when the
input mode is RGBA or LA and RGB otherwise; in particular a grayscale
`L` input yields a 3-channel output, so the channel count changes. -/
theorem c9_solid_mode (inpaint : Inpaint) (s : Settings) (img : Img)
    (mm dpi : ℚ) (hmethod : s.stretch_method = "solid_color") :
    ∃ o, generate_border_content inpaint s img mm dpi = some o ∧
      o.mode = (if img.mode = .RGBA ∨ img.mode = .LA then .RGBA else .RGB) ∧
      (img.mode = .L → o.mode.channels = 3 ∧ img.mode.channels = 1) := by
  rw [generate_border_content, if_neg (by rw [hmethod]; decide),
    if_neg (by rw [hmethod]; decide), if_neg (by rw [hmethod]; decide),
    if_pos hmethod]
  refine ⟨_, rfl, rfl, fun hL => ?_⟩
  constructor
  · show (if img.mode = .RGBA ∨ img.mode = .LA then Mode.RGBA else Mode.RGB).channels = 3
    rw [hL]
    decide
  · rw [hL]; rfl

/-- Witness for C9 on the 1×1 grayscale fixture. -/
theorem c9_solid_mode_witness :
    ∃ o, generate_border_content inpaintFail solidSettings grayImg 1 300 = some o ∧
      o.mode = (if grayImg.mode = .RGBA ∨ grayImg.mode = .LA then .RGBA else .RGB) ∧
      (grayImg.mode = .L → o.mode.channels = 3 ∧ grayImg.mode.channels = 1) :=
  c9_solid_mode inpaintFail solidSettings grayImg 1 300 rfl

/-- C10: DPI binding.  In the edge-stretch and gradient-fade
strategies the border width is `mmToPixels(border_width_mm, dpi)` with
the `dpi` *argument*, while the source strip/corner depth is clamped
from `mmToPixels(settings.stretch_source_width_mm,
settings.output_dpi)` with the dpi stored in the settings — two
independent DPI values. -/
theorem c10_dpi_binding (inpaint : Inpaint) (s : Settings) (img : Img)
    (mm d : ℚ) (hH : 0 < img.height) (hW : 0 < img.width) :
    (s.stretch_method = "edge_repeat" →
      ∃ o, generate_border_content inpaint s img mm d = some o ∧
        o.height = img.height + 2 * mm_to_pixels mm d ∧
        o.width = img.width + 2 * mm_to_pixels mm d ∧
        o.pix = edgeStretchedPix img (mm_to_pixels mm d)
          (max 1 (min (mm_to_pixels s.stretch_source_width_mm s.output_dpi)
            (min (img.width / 4) (min (img.height / 4) (mm_to_pixels mm d)))))) ∧
    (s.stretch_method = "gradient_fade" →
      ∃ o, generate_border_content inpaint s img mm d = some o ∧
        o.height = img.height + 2 * mm_to_pixels mm d ∧
        o.width = img.width + 2 * mm_to_pixels mm d ∧
        o.pix = gradientPix img (mm_to_pixels mm d)
          (max 1 (min (mm_to_pixels s.stretch_source_width_mm s.output_dpi)
            (min (img.width / 4) (min (img.height / 4) (mm_to_pixels mm d)))))) := by
  have hne : ¬(img.height = 0 ∨ img.width = 0) := by omega
  constructor
  · intro h1
    rw [generate_border_content, if_pos h1, edgeStretchedChecked, if_neg hne]
    exact ⟨_, rfl, rfl, rfl, rfl⟩
  · intro h3
    rw [generate_border_content, if_neg (by rw [h3]; decide),
      if_neg (by rw [h3]; decide), if_pos h3, gradientFadeChecked, if_neg hne]
    exact ⟨_, rfl, rfl, rfl, rfl⟩

/-- Witness for C10: the dpi argument is 72 while the settings carry
`output_dpi = 300`; the border width follows the argument
(`mmToPixels(1, 72) = 2`) and the source depth conversion follows the
settings (`mmToPixels(1, 300) = 11`) — genuinely different values. -/
theorem c10_dpi_binding_witness :
    ((edgeSettings.stretch_method = "edge_repeat" →
      ∃ o, generate_border_content inpaintId edgeSettings rgbImg 1 72 = some o ∧
        o.height = rgbImg.height + 2 * mm_to_pixels 1 72 ∧
        o.width = rgbImg.width + 2 * mm_to_pixels 1 72 ∧
        o.pix = edgeStretchedPix rgbImg (mm_to_pixels 1 72)
          (max 1 (min (mm_to_pixels edgeSettings.stretch_source_width_mm
              edgeSettings.output_dpi)
            (min (rgbImg.width / 4) (min (rgbImg.height / 4)
              (mm_to_pixels 1 72)))))) ∧
    (edgeSettings.stretch_method = "gradient_fade" →
      ∃ o, generate_border_content inpaintId edgeSettings rgbImg 1 72 = some o ∧
        o.height = rgbImg.height + 2 * mm_to_pixels 1 72 ∧
        o.width = rgbImg.width + 2 * mm_to_pixels 1 72 ∧
        o.pix = gradientPix rgbImg (mm_to_pixels 1 72)
          (max 1 (min (mm_to_pixels edgeSettings.stretch_source_width_mm
              edgeSettings.output_dpi)
            (min (rgbImg.width / 4) (min (rgbImg.height / 4)
              (mm_to_pixels 1 72))))))) ∧
      mm_to_pixels 1 72 = 2 ∧
      mm_to_pixels edgeSettings.stretch_source_width_mm edgeSettings.output_dpi = 11 :=
  ⟨c10_dpi_binding inpaintId edgeSettings rgbImg 1 72 (by decide) (by decide),
    mm_to_pixels_eval 1 72 2 (by norm_num) (by norm_num) (by norm_num),
    mm_to_pixels_eval 1 300 11 (by norm_num) (by norm_num) (by norm_num)⟩

/-- C6 (evaluating the code at the failing input): on a 0×0 raster
with method `solid_color` the code returns a `(2B) × (2B)` solid-color
raster and signals no failure at all, while the edge-stretch path on
the same empty raster dies with an uncaught `IndexError` — there is no
designed hard-failure signal for empty input. -/
theorem c6_empty_input_behavior :
    (generate_border_content inpaintFail solidSettings emptyImg 1 300).isSome
        = true ∧
      outDims (generate_border_content inpaintFail solidSettings emptyImg 1 300) =
        some (22, 22) ∧
      generate_border_content inpaintFail edgeSettings emptyImg 1 300 = none := by
  have hB : mm_to_pixels 1 300 = 11 :=
    mm_to_pixels_eval 1 300 11 (by norm_num) (by norm_num) (by norm_num)
  refine ⟨rfl, ?_, rfl⟩
  show some (emptyImg.height + 2 * mm_to_pixels 1 300,
    emptyImg.width + 2 * mm_to_pixels 1 300) = some (22, 22)
  rw [hB]
  rfl

/-- Witness for C5 on the 5×6 RGB fixture with a 2-pixel border. -/
theorem c5_edge_sampling_witness :
    stretchSourcePixels edgeSettings rgbImg.height rgbImg.width 2 =
        max 1 (min (mm_to_pixels edgeSettings.stretch_source_width_mm
            edgeSettings.output_dpi)
          (min 2 (min (rgbImg.height / 4) (rgbImg.width / 4)))) ∧
      (∀ i < 2, stretchIdx i
          (stretchSourcePixels edgeSettings rgbImg.height rgbImg.width 2) 2 <
        stretchSourcePixels edgeSettings rgbImg.height rgbImg.width 2) ∧
      (∀ i < 2, ∀ x < rgbImg.width, ∀ ch,
        (edgeStretched edgeSettings rgbImg 2).pix (2 - 1 - i) (2 + x) ch =
          rgbImg.pix (stretchIdx i
            (stretchSourcePixels edgeSettings rgbImg.height rgbImg.width 2) 2) x ch) ∧
      (∀ i < 2, ∀ x < rgbImg.width, ∀ ch,
        (edgeStretched edgeSettings rgbImg 2).pix (2 + rgbImg.height + i) (2 + x) ch =
          rgbImg.pix (rgbImg.height - 1 - stretchIdx i
            (stretchSourcePixels edgeSettings rgbImg.height rgbImg.width 2) 2) x ch) ∧
      (∀ i < 2, ∀ y < rgbImg.height, ∀ ch,
        (edgeStretched edgeSettings rgbImg 2).pix (2 + y) (2 - 1 - i) ch =
          rgbImg.pix y (stretchIdx i
            (stretchSourcePixels edgeSettings rgbImg.height rgbImg.width 2) 2) ch) ∧
      (∀ i < 2, ∀ y < rgbImg.height, ∀ ch,
        (edgeStretched edgeSettings rgbImg 2).pix (2 + y) (2 + rgbImg.width + i) ch =
          rgbImg.pix y (rgbImg.width - 1 - stretchIdx i
            (stretchSourcePixels edgeSettings rgbImg.height rgbImg.width 2) 2) ch) :=
  c5_edge_sampling edgeSettings rgbImg 2 (by decide) (by decide) (by decide)

end PdfBorderTool
